import Mathlib

/-!
Verification development for the sentence-fixer request relay.

The repository contains three near-duplicate serverless handler variants:

* `src/api/improve.js` (first half)  — the Groq variant;
* `src/api/improve.js` (second half) — the Gemini variant;
* `src/unnamed/part_000`             — the OpenAI variant.

Each handler checks the HTTP method, validates the inbound `sentence`,
builds a prompt, calls the provider, and normalizes the raw provider text
into the `{corrected, explanation, alternatives}` shape.  We embed the
strings as `List Char` and model `JSON.parse` with an executable
recursive-descent parser over the strict JSON grammar.  Machine-level
concerns that no handler logic depends on (floating point numeric values,
lone UTF-16 surrogates) are modeled conservatively: numbers keep their
source lexeme, and `\u` escapes map through `Char.ofNat`.
-/

/-- JSON values as produced by `JSON.parse`.  Numbers keep their raw
lexeme, since no handler logic inspects numeric magnitude beyond JS
truthiness.  Object fields are kept in insertion order with last-write
wins on duplicate keys, matching JS object semantics. -/
inductive Json where
  | null : Json
  | bool (b : Bool) : Json
  | num (lexeme : List Char) : Json
  | str (s : List Char) : Json
  | arr (elems : List Json) : Json
  | obj (fields : List (List Char × Json)) : Json

/-- JSON whitespace characters (space, tab, line feed, carriage return). -/
def isWs (c : Char) : Bool :=
  c = ' ' || c = '\t' || c = '\n' || c = '\r'

/-- Drop leading JSON whitespace. -/
def skipWs : List Char → List Char
  | [] => []
  | c :: cs => if isWs c then skipWs cs else c :: cs

/-- ASCII decimal digit test. -/
def isDigit (c : Char) : Bool :=
  48 ≤ c.toNat && c.toNat ≤ 57

/-- Split a maximal run of ASCII digits off the front of the input. -/
def takeDigits : List Char → List Char × List Char
  | [] => ([], [])
  | c :: cs =>
    if isDigit c then
      let p := takeDigits cs
      (c :: p.1, p.2)
    else ([], c :: cs)

/-- Value of one hexadecimal digit. -/
def hexVal (c : Char) : Option Nat :=
  if 48 ≤ c.toNat && c.toNat ≤ 57 then some (c.toNat - 48)
  else if 97 ≤ c.toNat && c.toNat ≤ 102 then some (c.toNat - 87)
  else if 65 ≤ c.toNat && c.toNat ≤ 70 then some (c.toNat - 55)
  else none

/-- Translation of a single-character JSON string escape. -/
def escChar (c : Char) : Option Char :=
  if c = '"' then some '"'
  else if c = '\\' then some '\\'
  else if c = '/' then some '/'
  else if c = 'b' then some (Char.ofNat 8)
  else if c = 'f' then some (Char.ofNat 12)
  else if c = 'n' then some '\n'
  else if c = 'r' then some '\r'
  else if c = 't' then some '\t'
  else none

/-- Parse the body of a JSON string after the opening quote, returning the
decoded characters and the remaining input after the closing quote. -/
def parseStringBody : List Char → Option (List Char × List Char)
  | [] => none
  | c :: rest =>
    if c = '"' then some ([], rest)
    else if c = '\\' then
      match rest with
      | [] => none
      | e :: rest2 =>
        if e = 'u' then
          match rest2 with
          | h1 :: h2 :: h3 :: h4 :: rest3 =>
            match hexVal h1, hexVal h2, hexVal h3, hexVal h4 with
            | some a, some b, some c3, some d =>
              match parseStringBody rest3 with
              | some (s, r) => some (Char.ofNat (((a * 16 + b) * 16 + c3) * 16 + d) :: s, r)
              | none => none
            | _, _, _, _ => none
          | _ => none
        else
          match escChar e with
          | some ec =>
            match parseStringBody rest2 with
            | some (s, r) => some (ec :: s, r)
            | none => none
          | none => none
    else if c.toNat < 32 then none
    else
      match parseStringBody rest with
      | some (s, r) => some (c :: s, r)
      | none => none

/-- Parse an optional exponent part, extending the number lexeme. -/
def parseExpPart (lex : List Char) (cs : List Char) : Option (List Char × List Char) :=
  match cs with
  | [] => some (lex, [])
  | c :: rest =>
    if c = 'e' || c = 'E' then
      let sg : List Char × List Char :=
        match rest with
        | [] => ([], [])
        | s :: r2 => if s = '+' || s = '-' then ([s], r2) else ([], rest)
      let ds := takeDigits sg.2
      if ds.1 = [] then none else some (lex ++ c :: sg.1 ++ ds.1, ds.2)
    else some (lex, cs)

/-- Parse an optional fraction part followed by an optional exponent. -/
def parseFracPart (lex : List Char) (cs : List Char) : Option (List Char × List Char) :=
  match cs with
  | [] => some (lex, [])
  | c :: rest =>
    if c = '.' then
      let ds := takeDigits rest
      if ds.1 = [] then none else parseExpPart (lex ++ c :: ds.1) ds.2
    else parseExpPart lex cs

/-- Parse a JSON number per the grammar minus-sign, int, frac, exp. -/
def parseNumberJson (cs : List Char) : Option (Json × List Char) :=
  let sg : List Char × List Char :=
    match cs with
    | [] => ([], [])
    | c :: r => if c = '-' then ([c], r) else ([], cs)
  match sg.2 with
  | [] => none
  | c :: r =>
    if c = '0' then
      match parseFracPart (sg.1 ++ [c]) r with
      | some (lex, rest) => some (.num lex, rest)
      | none => none
    else if isDigit c then
      let ds := takeDigits r
      match parseFracPart (sg.1 ++ c :: ds.1) ds.2 with
      | some (lex, rest) => some (.num lex, rest)
      | none => none
    else none

/-- Match a literal tail such as `rue` after the initial `t`. -/
def stripLit : List Char → List Char → Option (List Char)
  | [], cs => some cs
  | _ :: _, [] => none
  | p :: ps, c :: cs => if c = p then stripLit ps cs else none

/-- Insert or overwrite a field, keeping first-insertion position, as JS
property assignment does. -/
def objInsert (fs : List (List Char × Json)) (k : List Char) (v : Json) :
    List (List Char × Json) :=
  match fs with
  | [] => [(k, v)]
  | (k1, v1) :: rest => if k1 = k then (k1, v) :: rest else (k1, v1) :: objInsert rest k v

mutual

/-- Recursive-descent JSON value parser with explicit fuel (the fuel
bounds nesting depth; `jsonParse` supplies input length plus one, which
always suffices since every nesting level consumes a character). -/
def parseValue : Nat → List Char → Option (Json × List Char)
  | 0, _ => none
  | Nat.succ fuel, cs =>
    match skipWs cs with
    | [] => none
    | c :: rest =>
      if c = '{' then
        match skipWs rest with
        | [] => none
        | c2 :: rest2 =>
          if c2 = '}' then some (.obj [], rest2)
          else parseMembers fuel (c2 :: rest2) []
      else if c = '[' then
        match skipWs rest with
        | [] => none
        | c2 :: rest2 =>
          if c2 = ']' then some (.arr [], rest2)
          else parseElems fuel (c2 :: rest2) []
      else if c = '"' then
        match parseStringBody rest with
        | some (s, r) => some (.str s, r)
        | none => none
      else if c = 't' then
        match stripLit "rue".data rest with
        | some r => some (.bool true, r)
        | none => none
      else if c = 'f' then
        match stripLit "alse".data rest with
        | some r => some (.bool false, r)
        | none => none
      else if c = 'n' then
        match stripLit "ull".data rest with
        | some r => some (.null, r)
        | none => none
      else parseNumberJson (c :: rest)

/-- Parse object members after the opening brace (non-empty object). -/
def parseMembers : Nat → List Char → List (List Char × Json) →
    Option (Json × List Char)
  | 0, _, _ => none
  | Nat.succ fuel, cs, acc =>
    match skipWs cs with
    | [] => none
    | c :: rest =>
      if c = '"' then
        match parseStringBody rest with
        | none => none
        | some (key, rest2) =>
          match skipWs rest2 with
          | [] => none
          | c2 :: rest3 =>
            if c2 = ':' then
              match parseValue fuel rest3 with
              | none => none
              | some (v, rest4) =>
                match skipWs rest4 with
                | [] => none
                | c3 :: rest5 =>
                  if c3 = ',' then parseMembers fuel rest5 (objInsert acc key v)
                  else if c3 = '}' then some (.obj (objInsert acc key v), rest5)
                  else none
            else none
      else none

/-- Parse array elements after the opening bracket (non-empty array). -/
def parseElems : Nat → List Char → List Json → Option (Json × List Char)
  | 0, _, _ => none
  | Nat.succ fuel, cs, acc =>
    match parseValue fuel cs with
    | none => none
    | some (v, rest) =>
      match skipWs rest with
      | [] => none
      | c :: rest2 =>
        if c = ',' then parseElems fuel rest2 (acc ++ [v])
        else if c = ']' then some (.arr (acc ++ [v]), rest2)
        else none

end

/-- Model of `JSON.parse`: parse one value and require only whitespace to
remain. -/
def jsonParse (cs : List Char) : Option Json :=
  match parseValue (cs.length + 1) cs with
  | some (v, rest) => if skipWs rest = [] then some v else none
  | none => none

example : jsonParse "123".data = some (.num "123".data) := rfl
example : jsonParse " \x7b\"a\": 1\x7d ".data = some (.obj [("a".data, .num "1".data)]) := rfl
example : jsonParse "\x7b\"a\": [true, null, \"x\"]\x7d".data
    = some (.obj [("a".data, .arr [.bool true, .null, .str "x".data])]) := rfl
example : jsonParse "hello".data = none := rfl
example : jsonParse "\x7b\"a\":1".data = none := rfl
example : jsonParse "-0.5e+2".data = some (.num "-0.5e+2".data) := rfl

/-! ### Field access and the canonical response shapes -/

/-- Look up an object field, as JS property access does. -/
def getF (fs : List (List Char × Json)) (k : List Char) : Option Json :=
  match fs with
  | [] => none
  | (k1, v) :: rest => if k1 = k then some v else getF rest k

def errKey : List Char := "error".data
def corrKey : List Char := "corrected".data
def explKey : List Char := "explanation".data
def altsKey : List Char := "alternatives".data
def sentenceKey : List Char := "sentence".data
def languageKey : List Char := "language".data

/-- The `{error: msg}` JSON body every failure path sends. -/
def errObj (msg : String) : Json := .obj [(errKey, .str msg.data)]

/-- An HTTP reply as produced by `res.status(n).json(body)`. -/
structure HttpResponse where
  status : Nat
  body : Json

/-- Whether an optional field holds a JSON string (`typeof x === "string"`). -/
def isStrOpt : Option Json → Bool
  | some (.str _) => true
  | _ => false

/-- Whether an optional field holds a JSON array (`Array.isArray(x)`). -/
def isArrOpt : Option Json → Bool
  | some (.arr _) => true
  | _ => false

/-- Whether a JSON value is a (non-null, non-array) object. -/
def isJsObj : Json → Bool
  | .obj _ => true
  | _ => false

/-- JS truthiness of a possibly-missing JSON value.  A number is truthy
when its lexeme has a nonzero digit (denormal underflow to zero is not
modeled; no handler logic depends on numeric truthiness). -/
def jsTruthy : Option Json → Bool
  | none => false
  | some .null => false
  | some (.bool b) => b
  | some (.str s) => !s.isEmpty
  | some (.num lex) => lex.any (fun c => 49 ≤ c.toNat && c.toNat ≤ 57)
  | some (.arr _) => true
  | some (.obj _) => true

/-- A well-formed `CorrectionResult` payload: an object with string
`corrected`, string `explanation` and array `alternatives`. -/
def isWellFormedResult : Json → Bool
  | .obj fs => isStrOpt (getF fs corrKey) && isStrOpt (getF fs explKey)
      && isArrOpt (getF fs altsKey)
  | _ => false

/-- The rejection sentinel shape: `corrected=""` and `alternatives=[]`. -/
def isRejectionSentinel : Json → Bool
  | .obj fs =>
    (match getF fs corrKey with
     | some (.str s) => s.isEmpty
     | _ => false)
    && (match getF fs altsKey with
        | some (.arr xs) => xs.isEmpty
        | _ => false)
  | _ => false

/-! ### Trimming and brace extraction -/

/-- Model of `String.prototype.trim` restricted to the whitespace
characters that occur in provider output. -/
def trimList (cs : List Char) : List Char :=
  ((cs.dropWhile isWs).reverse.dropWhile isWs).reverse

/-- Index of the first occurrence of a character (`indexOf`). -/
def firstIdx (c : Char) : List Char → Option Nat
  | [] => none
  | a :: as => if a = c then some 0 else (firstIdx c as).map (· + 1)

/-- Index of the last occurrence of a character (`lastIndexOf`). -/
def lastIdx (c : Char) (cs : List Char) : Option Nat :=
  (firstIdx c cs.reverse).map (fun i => cs.length - 1 - i)

def leftBrace : Char := '{'
def rightBrace : Char := '}'

/-- The fallback extraction both the Groq and the OpenAI variants apply:
the substring from the first `{` to the last `}` inclusive, provided the
last `}` comes after the first `{`.  (The OpenAI variant phrases this as
the greedy regex match of a brace-delimited block, which selects exactly
the same span.) -/
def extractBraces (cs : List Char) : Option (List Char) :=
  match firstIdx leftBrace cs, lastIdx rightBrace cs with
  | some i, some j => if i < j then some ((cs.take (j + 1)).drop i) else none
  | _, _ => none

example : extractBraces "ab \x7b \"x\": \x7b\x7d \x7d cd".data = some "\x7b \"x\": \x7b\x7d \x7d".data := rfl
example : extractBraces "no braces".data = none := rfl
example : extractBraces "\x7d backwards \x7b".data = none := rfl

/-! ### The three normalizers -/

/-- Groq variant, parse phase: `JSON.parse` on the trimmed text, falling
back to the first-to-last-brace substring. -/
def groqParsed (content : List Char) : Option Json :=
  let tt := trimList content
  match jsonParse tt with
  | some v => some v
  | none =>
    match extractBraces tt with
    | some sub => jsonParse sub
    | none => none

/-- First coercion assignment: `if (!Array.isArray(parsed.alternatives))
parsed.alternatives = []`. -/
def coerceAlts (fs : List (List Char × Json)) : List (List Char × Json) :=
  if isArrOpt (getF fs altsKey) then fs else objInsert fs altsKey (.arr [])

/-- Second coercion assignment: `if (typeof parsed.corrected !==
"string") parsed.corrected = ""`. -/
def coerceCorr (fs : List (List Char × Json)) : List (List Char × Json) :=
  if isStrOpt (getF fs corrKey) then fs else objInsert fs corrKey (.str [])

/-- Third coercion assignment: `if (typeof parsed.explanation !==
"string") parsed.explanation = ""`. -/
def coerceExpl (fs : List (List Char × Json)) : List (List Char × Json) :=
  if isStrOpt (getF fs explKey) then fs else objInsert fs explKey (.str [])

/-- Groq variant, coercion phase: when the parsed value is an object,
force `alternatives` to an array and `corrected`/`explanation` to
strings.  (JS also runs the assignments when the value is an array, but
`res.json` drops non-index properties of arrays, so the observable
payload is the array unchanged; other non-objects skip the block.) -/
def groqCoerce : Json → Json
  | .obj fs => .obj (coerceExpl (coerceCorr (coerceAlts fs)))
  | j => j

/-- Groq variant, full normalization of the provider content. -/
def groqNormalize (content : List Char) : HttpResponse :=
  match groqParsed content with
  | some parsed => ⟨200, groqCoerce parsed⟩
  | none => ⟨500, errObj "Invalid AI response"⟩

/-- Gemini variant: direct `JSON.parse` of the trimmed text only; the
parsed value is echoed to the caller with no shape validation at all. -/
def geminiNormalize (content : List Char) : HttpResponse :=
  match jsonParse (trimList content) with
  | some parsed => ⟨200, parsed⟩
  | none => ⟨500, errObj "Invalid AI response"⟩

/-- OpenAI variant, parse phase: `JSON.parse` on the raw content, falling
back to the brace-delimited regex match. -/
def openaiParse (content : List Char) : Option Json :=
  match jsonParse content with
  | some v => some v
  | none =>
    match extractBraces content with
    | some sub => jsonParse sub
    | none => none

/-- The truncation the OpenAI variant applies: `alternatives.slice(0, 5)`. -/
def take5Alts (o : Option Json) : Json :=
  match o with
  | some (.arr xs) => .arr (xs.take 5)
  | _ => .arr []

/-- OpenAI variant, full normalization: strict field validation (`throw`
on falsy `corrected`/`explanation` or non-array `alternatives`, which the
catch-all converts to a 500 with the thrown message), then a rebuilt
object with `alternatives` truncated to five.  Property access on a
parsed `null` raises a TypeError whose engine message reaches the caller
through the same catch-all. -/
def openaiNormalize (content : List Char) : HttpResponse :=
  match openaiParse content with
  | none => ⟨500, errObj "Failed to parse AI response as JSON"⟩
  | some .null => ⟨500, errObj "Cannot read properties of null"⟩
  | some (.obj fs) =>
    if jsTruthy (getF fs corrKey) && jsTruthy (getF fs explKey)
        && isArrOpt (getF fs altsKey) then
      ⟨200, .obj [(corrKey, (getF fs corrKey).getD .null),
                  (explKey, (getF fs explKey).getD .null),
                  (altsKey, take5Alts (getF fs altsKey))]⟩
    else ⟨500, errObj "Invalid response format from AI"⟩
  | some _ => ⟨500, errObj "Invalid response format from AI"⟩

example : (groqNormalize "```json\n\x7b\"corrected\": \"Hi\"\x7d\n```".data).status = 200 := rfl
example : (geminiNormalize "```json\n\x7b\"corrected\": \"Hi\"\x7d\n```".data).status = 500 := rfl
example : openaiNormalize "Sure! \x7b\"corrected\": \"Hi\", \"explanation\": \"e\", \"alternatives\": []\x7d Hope that helps.".data
    = ⟨200, .obj [(corrKey, .str "Hi".data), (explKey, .str "e".data), (altsKey, .arr [])]⟩ := rfl

/-! ### Language heuristics of the OpenAI variant -/

/-- JS `toLowerCase` restricted to the characters these regexes can
meet: ASCII letters plus the accented Spanish letters of the char class. -/
def jsLower (c : Char) : Char :=
  if 65 ≤ c.toNat && c.toNat ≤ 90 then Char.ofNat (c.toNat + 32)
  else if c = 'Á' then 'á'
  else if c = 'É' then 'é'
  else if c = 'Í' then 'í'
  else if c = 'Ó' then 'ó'
  else if c = 'Ú' then 'ú'
  else if c = 'Ñ' then 'ñ'
  else if c = 'Ü' then 'ü'
  else c

/-- Regex word character `\w = [A-Za-z0-9_]` (accented letters are not
word characters in JS regexes without the unicode flag). -/
def isWordChar (c : Char) : Bool :=
  (97 ≤ c.toNat && c.toNat ≤ 122) || (65 ≤ c.toNat && c.toNat ≤ 90)
    || (48 ≤ c.toNat && c.toNat ≤ 57) || c = '_'

/-- Word-character status of the character at an index, out of range
counting as non-word. -/
def wcAt (cs : List Char) (i : Nat) : Bool :=
  match cs.get? i with
  | some c => isWordChar c
  | none => false

/-- Regex `\b`: a word boundary sits between positions `i - 1` and `i`
exactly when the two sides disagree on word-character status. -/
def boundaryAt (cs : List Char) (i : Nat) : Bool :=
  (if i = 0 then false else wcAt cs (i - 1)) != wcAt cs i

/-- Model of `new RegExp` word-alternation testing with the `i` flag: some
alternative occurs (case-insensitively) with word boundaries on both
sides. -/
def testWordRegex (ws : List (List Char)) (cs : List Char) : Bool :=
  let l := cs.map jsLower
  (List.range (l.length + 1)).any fun i =>
    ws.any fun w =>
      ((l.drop i).take w.length == w) && boundaryAt l i && boundaryAt l (i + w.length)

def spanishAccents : List Char := "áéíóúñ¿¡ü".data

def spanishWords : List (List Char) :=
  ["el", "la", "los", "las", "un", "una", "unos", "unas", "es", "son", "está", "están"].map
    String.data

def englishWords : List (List Char) :=
  ["the", "is", "are", "was", "were", "a", "an", "this", "that", "these", "those"].map
    String.data

/-- Spanish heuristic: `/[áéíóúñ¿¡ü]/i.test(sentence) || /\b(el|la|...)\b/i.test(sentence)`. -/
def isSpanishB (s : List Char) : Bool :=
  s.any (fun c => spanishAccents.contains (jsLower c)) || testWordRegex spanishWords s

/-- English heuristic: `/\b(the|is|are|...)\b/i.test(sentence)`. -/
def isEnglishB (s : List Char) : Bool :=
  testWordRegex englishWords s

example : isSpanishB "Hola, ¿cómo estás hoy?".data = true := rfl
example : isEnglishB "Hola, ¿cómo estás hoy?".data = false := rfl
example : isEnglishB "this is a test".data = true := rfl
example : isSpanishB "el perro".data = true := rfl

/-- JS `.length` counts UTF-16 code units: astral characters count two. -/
def jsLength (cs : List Char) : Nat :=
  (cs.map fun c => if 65536 ≤ c.toNat then 2 else 1).sum

/-- Strict comparison `language === w` on the destructured body field. -/
def langIs (language : Option Json) (w : List Char) : Bool :=
  match language with
  | some (.str l) => l == w
  | _ => false

/-- The OpenAI variant language-mismatch guard.  The branch taken when
the requested language is Spanish and the sentence looks neither Spanish
nor English is deliberately empty in the source; only the English branch
can reject, and only above twenty characters. -/
def openaiGuard (language : Option Json) (s : List Char) : Bool :=
  if langIs language "Spanish".data && !isSpanishB s && !isEnglishB s then false
  else if langIs language "English".data && isSpanishB s && !isEnglishB s
      && decide (20 < jsLength s) then true
  else false

/-! ### The three request handlers -/

/-- Outcome of the outbound provider call as the handler observes it. -/
inductive ProviderResult where
  | httpError (msg : List Char)
  | noContent
  | success (content : List Char)

/-- A full handler run: the HTTP reply plus whether the outbound provider
call was made. -/
structure HandlerRun where
  response : HttpResponse
  calledProvider : Bool

/-- Groq/Gemini sentence validation:
`!body.sentence || typeof body.sentence !== "string" || body.sentence.trim() === ""`. -/
def groqSentenceOk (body : List (List Char × Json)) : Bool :=
  match getF body sentenceKey with
  | some (.str s) => !s.isEmpty && !(trimList s).isEmpty
  | _ => false

/-- OpenAI sentence validation:
`!body.sentence || typeof body.sentence !== "string"` — no trim check. -/
def openaiSentenceOk (body : List (List Char × Json)) : Bool :=
  match getF body sentenceKey with
  | some (.str s) => !s.isEmpty
  | _ => false

/-- The Groq variant handler, from method check to reply.  The request
body is modeled as its parsed JSON object fields; the provider
credential as a flag; the awaited provider call as a `ProviderResult`. -/
def groqHandler (method : List Char) (body : List (List Char × Json))
    (hasKey : Bool) (pr : ProviderResult) : HandlerRun :=
  if method ≠ "POST".data then ⟨⟨405, errObj "Method not allowed"⟩, false⟩
  else if ¬ groqSentenceOk body then ⟨⟨400, errObj "Sentence is required"⟩, false⟩
  else if ¬ hasKey then
    ⟨⟨500, errObj "API key not configured. Please set GROQ_API_KEY environment variable."⟩,
      false⟩
  else
    match pr with
    | .httpError m => ⟨⟨500, .obj [(errKey, .str m)]⟩, true⟩
    | .noContent => ⟨⟨500, errObj "No response from AI"⟩, true⟩
    | .success content => ⟨groqNormalize content, true⟩

/-- The Gemini variant handler.  Transport errors and empty content are
thrown and so reach the caller through the catch-all as the generic
message. -/
def geminiHandler (method : List Char) (body : List (List Char × Json))
    (hasKey : Bool) (pr : ProviderResult) : HandlerRun :=
  if method ≠ "POST".data then ⟨⟨405, errObj "Method not allowed"⟩, false⟩
  else if ¬ groqSentenceOk body then ⟨⟨400, errObj "Sentence is required"⟩, false⟩
  else if ¬ hasKey then
    ⟨⟨500, errObj "API key not configured. Please set GEMINI_API_KEY environment variable."⟩,
      false⟩
  else
    match pr with
    | .httpError _ => ⟨⟨500, errObj "Invalid AI response"⟩, true⟩
    | .noContent => ⟨⟨500, errObj "Invalid AI response"⟩, true⟩
    | .success content => ⟨geminiNormalize content, true⟩

/-- Fallback `error.message || "An internal error occurred"` in the OpenAI
catch-all. -/
def openaiCatch (m : List Char) : List Char :=
  if m.isEmpty then "An internal error occurred".data else m

/-- The OpenAI variant handler: method check, lenient sentence check,
the language-mismatch guard (a 400 error reply, before the credential
check and the provider call), then the strict normalization. -/
def openaiHandler (method : List Char) (body : List (List Char × Json))
    (hasKey : Bool) (pr : ProviderResult) : HandlerRun :=
  if method ≠ "POST".data then ⟨⟨405, errObj "Method not allowed. Use POST."⟩, false⟩
  else if ¬ openaiSentenceOk body then
    ⟨⟨400, errObj "Sentence is required and must be a string."⟩, false⟩
  else
    match getF body sentenceKey with
    | some (.str s) =>
      if openaiGuard (getF body languageKey) s then
        ⟨⟨400, errObj "The sentence appears to be in Spanish, but English was selected. Please select the correct language."⟩,
          false⟩
      else if ¬ hasKey then
        ⟨⟨500, errObj "API key not configured. Please set OPENAI_API_KEY environment variable."⟩,
          false⟩
      else
        match pr with
        | .httpError m => ⟨⟨500, .obj [(errKey, .str (openaiCatch m))]⟩, true⟩
        | .noContent => ⟨⟨500, errObj "No response from AI"⟩, true⟩
        | .success content => ⟨openaiNormalize content, true⟩
    | _ => ⟨⟨400, errObj "Sentence is required and must be a string."⟩, false⟩

example :
    (openaiHandler "POST".data
      [(sentenceKey, .str "Hola, ¿cómo estás hoy?".data), (languageKey, .str "English".data)]
      true (.success "\x7b\x7d".data)).response.status = 400 := rfl
example :
    (openaiHandler "POST".data
      [(sentenceKey, .str "Hola ¿qué tal?".data), (languageKey, .str "English".data)]
      true (.success "\x7b\x7d".data)).response.status = 500 := rfl

/-- The `alternatives` field of an object payload. -/
def getAlts : Json → Option Json
  | .obj fs => getF fs altsKey
  | _ => none

/-- The error message of a reply whose body is a single-field error
object, used to compare caller-visible failure bodies. -/
def errMsgOf (r : HttpResponse) : Option (List Char) :=
  match r.body with
  | .obj [(k, .str m)] => if k = errKey then some m else none
  | _ => none

/-- The number of `alternatives` entries in an object payload. -/
def altsLenOf (r : HttpResponse) : Option Nat :=
  match getAlts r.body with
  | some (.arr xs) => some xs.length
  | _ => none

/-- The 400 message of the OpenAI language-mismatch guard. -/
def mismatchMsg : String :=
  "The sentence appears to be in Spanish, but English was selected. Please select the correct language."

/-- A benign request body used by concrete runs. -/
def plainBody : List (List Char × Json) :=
  [(sentenceKey, .str "Hello there friend".data), (languageKey, .str "English".data),
    ("tone".data, .str "neutral".data)]

/-- The spec example request: English requested, Spanish-looking sentence
longer than the threshold. -/
def holaBody : List (List Char × Json) :=
  [(sentenceKey, .str "Hola, ¿cómo estás hoy?".data), (languageKey, .str "English".data),
    ("tone".data, .str "neutral".data)]

/-- A request whose sentence is whitespace-only (non-empty, empty after
trimming). -/
def spacesBody : List (List Char × Json) :=
  [(sentenceKey, .str "   ".data), (languageKey, .str "English".data)]

/-- Provider output carrying seven alternatives. -/
def sevenAltsText : String :=
  "\x7b\"corrected\": \"a\", \"explanation\": \"b\", \"alternatives\": [\"1\",\"2\",\"3\",\"4\",\"5\",\"6\",\"7\"]\x7d"

/-- The object fields `JSON.parse` produces for `sevenAltsText`. -/
def sevenAltsFields : List (List Char × Json) :=
  [(corrKey, .str "a".data), (explKey, .str "b".data),
    (altsKey, .arr [.str "1".data, .str "2".data, .str "3".data, .str "4".data,
      .str "5".data, .str "6".data, .str "7".data])]

/-- A small well-formed provider reply used to exercise the fence
stripping behavior. -/
def okText : String :=
  "\x7b\"corrected\": \"ok\", \"explanation\": \"fine\", \"alternatives\": []\x7d"

/-- The object fields `JSON.parse` produces for `okText`. -/
def okFields : List (List Char × Json) :=
  [(corrKey, .str "ok".data), (explKey, .str "fine".data), (altsKey, .arr [])]

/-- The rejection-sentinel reply the prompt itself asks the model to
produce on a language mismatch. -/
def sentinelText : String :=
  "\x7b\"corrected\": \"\", \"explanation\": \"Please try again.\", \"alternatives\": []\x7d"

/-- The object fields `JSON.parse` produces for `sentinelText`. -/
def sentinelFields : List (List Char × Json) :=
  [(corrKey, .str []), (explKey, .str "Please try again.".data), (altsKey, .arr [])]

example : jsonParse sevenAltsText.data = some (.obj sevenAltsFields) := rfl
example : jsonParse okText.data = some (.obj okFields) := rfl
example : jsonParse sentinelText.data = some (.obj sentinelFields) := rfl

/-! ### Helper lemmas on field update and the Groq coercion -/

theorem getF_objInsert_self (fs : List (List Char × Json)) (k : List Char) (v : Json) :
    getF (objInsert fs k v) k = some v := by
  induction fs with
  | nil => simp [objInsert, getF]
  | cons p rest ih =>
    obtain ⟨k1, v1⟩ := p
    by_cases h : k1 = k
    · simp [objInsert, h, getF]
    · simp [objInsert, h, getF, ih]

theorem getF_objInsert_other (fs : List (List Char × Json)) (k k2 : List Char) (v : Json)
    (h : k2 ≠ k) : getF (objInsert fs k v) k2 = getF fs k2 := by
  induction fs with
  | nil =>
    have h2 : ¬ k = k2 := fun hh => h hh.symm
    simp [objInsert, getF, h2]
  | cons p rest ih =>
    obtain ⟨k1, v1⟩ := p
    by_cases h1 : k1 = k
    · subst h1
      have h2 : ¬ k1 = k2 := fun hh => h (hh ▸ rfl)
      simp [objInsert, getF, h2]
    · simp [objInsert, h1, getF, ih]

theorem coerceAlts_arr (fs : List (List Char × Json)) :
    isArrOpt (getF (coerceAlts fs) altsKey) = true := by
  unfold coerceAlts
  split
  · assumption
  · rw [getF_objInsert_self]
    rfl

theorem coerceCorr_str (fs : List (List Char × Json)) :
    isStrOpt (getF (coerceCorr fs) corrKey) = true := by
  unfold coerceCorr
  split
  · assumption
  · rw [getF_objInsert_self]
    rfl

theorem coerceExpl_str (fs : List (List Char × Json)) :
    isStrOpt (getF (coerceExpl fs) explKey) = true := by
  unfold coerceExpl
  split
  · assumption
  · rw [getF_objInsert_self]
    rfl

theorem coerceCorr_keeps (fs : List (List Char × Json)) (k : List Char) (h : k ≠ corrKey) :
    getF (coerceCorr fs) k = getF fs k := by
  unfold coerceCorr
  split
  · rfl
  · exact getF_objInsert_other fs corrKey k (.str []) h

theorem coerceExpl_keeps (fs : List (List Char × Json)) (k : List Char) (h : k ≠ explKey) :
    getF (coerceExpl fs) k = getF fs k := by
  unfold coerceExpl
  split
  · rfl
  · exact getF_objInsert_other fs explKey k (.str []) h

theorem coerceAlts_keeps (fs : List (List Char × Json)) (k : List Char) (h : k ≠ altsKey) :
    getF (coerceAlts fs) k = getF fs k := by
  unfold coerceAlts
  split
  · rfl
  · exact getF_objInsert_other fs altsKey k (.arr []) h

/-- The coercion block always leaves an object in the canonical shape. -/
theorem groqCoerce_obj_wellFormed (fs : List (List Char × Json)) :
    isWellFormedResult (groqCoerce (.obj fs)) = true := by
  have hc : isStrOpt (getF (coerceExpl (coerceCorr (coerceAlts fs))) corrKey) = true := by
    rw [coerceExpl_keeps _ _ (by decide)]
    exact coerceCorr_str _
  have ha : isArrOpt (getF (coerceExpl (coerceCorr (coerceAlts fs))) altsKey) = true := by
    rw [coerceExpl_keeps _ _ (by decide), coerceCorr_keeps _ _ (by decide)]
    exact coerceAlts_arr _
  simp [groqCoerce, isWellFormedResult, hc, ha, coerceExpl_str]

/-- The coercion block never truncates an `alternatives` array. -/
theorem groqCoerce_alts_preserved (fs : List (List Char × Json)) (xs : List Json)
    (h : getF fs altsKey = some (.arr xs)) :
    getAlts (groqCoerce (.obj fs)) = some (.arr xs) := by
  have h1 : coerceAlts fs = fs := by
    unfold coerceAlts
    rw [h]
    rfl
  have h2 : getF (coerceExpl (coerceCorr fs)) altsKey = some (.arr xs) := by
    rw [coerceExpl_keeps (coerceCorr fs) altsKey (by decide),
      coerceCorr_keeps fs altsKey (by decide), h]
  simp [groqCoerce, getAlts, h1, h2]

/-! ### Helper lemmas on trimming and the fenced code block -/

theorem dropWhile_eq_self_of_head (cs : List Char) (a : Char) (h1 : cs.head? = some a)
    (h2 : isWs a = false) : cs.dropWhile isWs = cs := by
  cases cs with
  | nil => rfl
  | cons c t =>
    have : c = a := by
      simpa using h1
    subst this
    simp [List.dropWhile_cons, h2]

/-- Trimming is the identity on text whose first and last characters are
not whitespace. -/
theorem trimList_eq_self (cs : List Char) (a b : Char) (h1 : cs.head? = some a)
    (h2 : isWs a = false) (h3 : cs.getLast? = some b) (h4 : isWs b = false) :
    trimList cs = cs := by
  unfold trimList
  rw [dropWhile_eq_self_of_head cs a h1 h2]
  have h5 : cs.reverse.head? = some b := by
    rw [List.head?_reverse]
    exact h3
  rw [dropWhile_eq_self_of_head cs.reverse b h5 h4, List.reverse_reverse]

theorem firstIdx_append_of_not_mem (c : Char) (xs ys : List Char) (h : c ∉ xs) :
    firstIdx c (xs ++ ys) = (firstIdx c ys).map (· + xs.length) := by
  induction xs with
  | nil =>
    cases h3 : firstIdx c ys <;> simp [h3]
  | cons a as ih =>
    have ha : ¬ a = c := fun hh => h (hh ▸ List.mem_cons_self a as)
    have h2 : c ∉ as := fun hh => h (List.mem_cons_of_mem a hh)
    cases h3 : firstIdx c ys <;>
      simp [firstIdx, ha, ih h2, h3, Nat.add_assoc, Nat.add_comm 1]

/-- The characters of the markdown fence opener. -/
def fencePre : List Char := "```json\n".data

/-- The characters of the markdown fence closer. -/
def fenceSuf : List Char := "\n```".data

/-- First-to-last-brace extraction recovers exactly the original object
text from its fenced form: the fence markers contain no braces, so the
first `{` and the last `}` of the fenced text are the ends of `s`. -/
theorem extractBraces_fence (s : List Char) (h1 : s.head? = some leftBrace)
    (h2 : s.getLast? = some rightBrace) :
    extractBraces (fencePre ++ s ++ fenceSuf) = some s := by
  obtain ⟨t, rfl⟩ : ∃ t, s = leftBrace :: t := by
    cases s with
    | nil => simp at h1
    | cons a t =>
      have ha : a = leftBrace := by simpa using h1
      exact ⟨t, by rw [ha]⟩
  obtain ⟨u, hu⟩ : ∃ u, (leftBrace :: t).reverse = rightBrace :: u := by
    cases hr : (leftBrace :: t).reverse with
    | nil => simp at hr
    | cons b u =>
      have hb : b = rightBrace := by
        have hh : (leftBrace :: t).reverse.head? = some b := by rw [hr]; rfl
        rw [List.head?_reverse, h2] at hh
        exact (Option.some_inj.mp hh).symm
      exact ⟨u, by rw [hb]⟩
  have hlen2 : 2 ≤ (leftBrace :: t).length := by
    cases t with
    | nil =>
      have hbad : leftBrace = rightBrace := by simpa using h2
      exact absurd hbad (by decide)
    | cons x y => simp
  have hfirst : firstIdx leftBrace (fencePre ++ (leftBrace :: t) ++ fenceSuf) = some 8 := by
    rw [List.append_assoc,
      firstIdx_append_of_not_mem leftBrace fencePre _ (by decide)]
    simp [firstIdx]
    rfl
  have hlast : lastIdx rightBrace (fencePre ++ (leftBrace :: t) ++ fenceSuf)
      = some ((leftBrace :: t).length + 7) := by
    have hf : firstIdx rightBrace ((fencePre ++ (leftBrace :: t) ++ fenceSuf).reverse)
        = some 4 := by
      have hrev : (fencePre ++ (leftBrace :: t) ++ fenceSuf).reverse
          = fenceSuf.reverse ++ ((rightBrace :: u) ++ fencePre.reverse) := by
        rw [List.reverse_append, List.reverse_append, hu]
      rw [hrev, firstIdx_append_of_not_mem rightBrace fenceSuf.reverse _ (by decide),
        List.cons_append]
      have h0 : firstIdx rightBrace (rightBrace :: (u ++ fencePre.reverse)) = some 0 := by
        simp [firstIdx]
      rw [h0]
      rfl
    unfold lastIdx
    rw [hf]
    simp only [Option.map_some']
    congr 1
    have hlen : (fencePre ++ (leftBrace :: t) ++ fenceSuf).length
        = (leftBrace :: t).length + 12 := by
      rw [List.length_append, List.length_append]
      have e1 : fencePre.length = 8 := rfl
      have e2 : fenceSuf.length = 4 := rfl
      rw [e1, e2]
      omega
    rw [hlen]
    omega
  unfold extractBraces
  rw [hfirst, hlast]
  show (if 8 < (leftBrace :: t).length + 7 then
      some (((fencePre ++ (leftBrace :: t) ++ fenceSuf).take
        ((leftBrace :: t).length + 7 + 1)).drop 8)
    else none) = some (leftBrace :: t)
  rw [if_pos (by omega)]
  congr 1
  have hpl : (fencePre ++ (leftBrace :: t)).length = (leftBrace :: t).length + 7 + 1 := by
    rw [List.length_append]
    have e1 : fencePre.length = 8 := rfl
    rw [e1]
    omega
  have htake : (fencePre ++ (leftBrace :: t) ++ fenceSuf).take ((leftBrace :: t).length + 7 + 1)
      = fencePre ++ (leftBrace :: t) :=
    List.take_left' hpl
  rw [htake]
  exact List.drop_left' rfl

/-- The value parser rejects any input whose first character is a
backtick (code point 96), whatever the fuel: no JSON value starts
there. -/
theorem parseValue_backtick (fuel : Nat) (cs : List Char) :
    parseValue fuel (Char.ofNat 96 :: cs) = none := by
  cases fuel with
  | zero => rfl
  | succ n => rfl

/-- Model fact: `JSON.parse` rejects any text beginning with a backtick. -/
theorem jsonParse_backtick (cs : List Char) :
    jsonParse (Char.ofNat 96 :: cs) = none := by
  unfold jsonParse
  rw [parseValue_backtick]

/-- The fenced text in head-constructor form. -/
theorem fence_cons (s : List Char) :
    fencePre ++ s ++ fenceSuf
      = Char.ofNat 96 :: ("``json\n".data ++ s ++ fenceSuf) := by
  rw [show fencePre = Char.ofNat 96 :: "``json\n".data from rfl,
    List.cons_append, List.cons_append]

/-- C5 (amended): for every well-formed JSON object text, the Groq
variant yields an identical result on the text wrapped in a markdown
```json fence and on the unfenced text — not by removing fence markers
(no variant strips fences) but because the direct parse of the fenced
text fails at the leading backtick and the first-to-last-brace
extraction recovers exactly the original text.  (The Gemini variant,
which has no extraction step, fails on fenced input; see the
counterexample.) -/
theorem C5_groq_fence_strip_invariant (s : List Char) (v : Json)
    (hp : jsonParse s = some v) (h1 : s.head? = some leftBrace)
    (h2 : s.getLast? = some rightBrace) :
    groqNormalize (fencePre ++ s ++ fenceSuf) = groqNormalize s := by
  have hts : trimList s = s :=
    trimList_eq_self s leftBrace rightBrace h1 (by decide) h2 (by decide)
  have hhead : (fencePre ++ s ++ fenceSuf).head? = some (Char.ofNat 96) := by
    rw [fence_cons]
    rfl
  have hlastc : (fencePre ++ s ++ fenceSuf).getLast? = some (Char.ofNat 96) := by
    rw [List.append_assoc, List.getLast?_append, List.getLast?_append]
    rfl
  have htf : trimList (fencePre ++ s ++ fenceSuf) = fencePre ++ s ++ fenceSuf :=
    trimList_eq_self _ _ _ hhead (by decide) hlastc (by decide)
  have hjf : jsonParse (fencePre ++ s ++ fenceSuf) = none := by
    rw [fence_cons]
    exact jsonParse_backtick _
  have hext : extractBraces (fencePre ++ s ++ fenceSuf) = some s :=
    extractBraces_fence s h1 h2
  unfold groqNormalize groqParsed
  simp only [htf, hts, hjf, hext, hp]

/-! ### Helper lemmas about all-whitespace sentences -/

theorem all_ws_of_trimList_nil (s : List Char) (h : trimList s = []) :
    ∀ c ∈ s, isWs c = true := by
  unfold trimList at h
  rw [List.reverse_eq_nil_iff] at h
  have h3 : ∀ c ∈ s.dropWhile isWs, isWs c = true := by
    intro c hc
    have h2 := List.dropWhile_eq_nil_iff.mp h
    exact h2 c (List.mem_reverse.mpr hc)
  intro c hc
  rw [← List.takeWhile_append_dropWhile isWs s] at hc
  rcases List.mem_append.mp hc with h4 | h4
  · exact List.mem_takeWhile_imp h4
  · exact h3 c h4

theorem jsLower_ws (c : Char) (h : isWs c = true) : jsLower c = c := by
  have h2 : ((c = ' ' ∨ c = '\t') ∨ c = '\n') ∨ c = '\r' := by
    simpa [isWs] using h
  rcases h2 with ((rfl | rfl) | rfl) | rfl <;> decide

/-- The boundary-word regex never fires on an all-whitespace sentence:
every alternative starts with a non-whitespace character, but every
character of the lowered text is whitespace. -/
theorem testWordRegex_all_ws (ws : List (List Char)) (s : List Char)
    (hws : ∀ w ∈ ws, w ≠ [] ∧ isWs (w.headD ' ') = false)
    (h : ∀ c ∈ s, isWs c = true) :
    testWordRegex ws s = false := by
  cases hbool : testWordRegex ws s with
  | false => rfl
  | true =>
    exfalso
    unfold testWordRegex at hbool
    rw [List.any_eq_true] at hbool
    obtain ⟨i, _, hinner⟩ := hbool
    rw [List.any_eq_true] at hinner
    obtain ⟨w, hw, hcond⟩ := hinner
    obtain ⟨hne, hhd⟩ := hws w hw
    obtain ⟨c, t, rfl⟩ : ∃ c t, w = c :: t := by
      cases w with
      | nil => exact absurd rfl hne
      | cons c t => exact ⟨c, t, rfl⟩
    have hm : (((s.map jsLower).drop i).take (c :: t).length == c :: t) = true := by
      have := Bool.and_eq_true_iff.mp (Bool.and_eq_true_iff.mp hcond).1
      exact this.1
    cases hd : (s.map jsLower).drop i with
    | nil =>
      rw [hd] at hm
      simp at hm
    | cons c1 r =>
      rw [hd] at hm
      have hc1 : c1 = c := by
        have : ((c1 :: r.take t.length) == c :: t) = true := by
          simpa [List.take] using hm
        have h5 := (Bool.and_eq_true_iff.mp this).1
        exact eq_of_beq h5
      have hmem : c1 ∈ s.map jsLower := List.mem_of_mem_drop (hd ▸ List.mem_cons_self c1 r)
      obtain ⟨c0, hc0, hlow⟩ := List.mem_map.mp hmem
      have hwsc0 : isWs c0 = true := h c0 hc0
      have : isWs c1 = true := by
        rw [← hlow, jsLower_ws c0 hwsc0]
        exact hwsc0
      rw [hc1] at this
      have hc' : isWs (List.headD (c :: t) ' ') = false := hhd
      simp only [List.headD] at hc'
      rw [this] at hc'
      exact Bool.false_ne_true hc'.symm

/-- An all-whitespace sentence never looks Spanish to the heuristic. -/
theorem isSpanishB_all_ws (s : List Char) (h : ∀ c ∈ s, isWs c = true) :
    isSpanishB s = false := by
  unfold isSpanishB
  have ha : (s.any fun c => spanishAccents.contains (jsLower c)) = false := by
    rw [List.any_eq_false]
    intro c hc
    have hcw := h c hc
    rw [jsLower_ws c hcw]
    have h2 : ((c = ' ' ∨ c = '\t') ∨ c = '\n') ∨ c = '\r' := by
      simpa [isWs] using hcw
    rcases h2 with ((rfl | rfl) | rfl) | rfl <;> decide
  have hb : testWordRegex spanishWords s = false :=
    testWordRegex_all_ws spanishWords s (by decide) h
  rw [ha, hb]
  rfl





/-! ### Claim theorems -/

/-- C8: for every inbound request whose method is not POST, each handler
variant replies 405, and the reply is independent of the request body,
the credential and the provider — the method check runs before anything
else is touched. -/
theorem C8_non_post_405 (m : List Char) (b1 b2 : List (List Char × Json))
    (k1 k2 : Bool) (p1 p2 : ProviderResult) (h : m ≠ "POST".data) :
    groqHandler m b1 k1 p1 = ⟨⟨405, errObj "Method not allowed"⟩, false⟩
    ∧ groqHandler m b1 k1 p1 = groqHandler m b2 k2 p2
    ∧ geminiHandler m b1 k1 p1 = ⟨⟨405, errObj "Method not allowed"⟩, false⟩
    ∧ openaiHandler m b1 k1 p1 = ⟨⟨405, errObj "Method not allowed. Use POST."⟩, false⟩
    ∧ openaiHandler m b1 k1 p1 = openaiHandler m b2 k2 p2 := by
  have g1 : groqHandler m b1 k1 p1 = ⟨⟨405, errObj "Method not allowed"⟩, false⟩ := by
    unfold groqHandler
    rw [if_pos h]
  have g2 : groqHandler m b2 k2 p2 = ⟨⟨405, errObj "Method not allowed"⟩, false⟩ := by
    unfold groqHandler
    rw [if_pos h]
  have ge1 : geminiHandler m b1 k1 p1 = ⟨⟨405, errObj "Method not allowed"⟩, false⟩ := by
    unfold geminiHandler
    rw [if_pos h]
  have o1 : openaiHandler m b1 k1 p1 = ⟨⟨405, errObj "Method not allowed. Use POST."⟩, false⟩ := by
    unfold openaiHandler
    rw [if_pos h]
  have o2 : openaiHandler m b2 k2 p2 = ⟨⟨405, errObj "Method not allowed. Use POST."⟩, false⟩ := by
    unfold openaiHandler
    rw [if_pos h]
  exact ⟨g1, g1.trans g2.symm, ge1, o1, o1.trans o2.symm⟩

/-- C8 witness: a GET request is refused with 405 by all variants
without consulting body, key or provider. -/
theorem C8_non_post_405_witness :
    "GET".data ≠ "POST".data
    ∧ groqHandler "GET".data plainBody true (.success "\x7b\x7d".data)
        = ⟨⟨405, errObj "Method not allowed"⟩, false⟩
    ∧ openaiHandler "GET".data plainBody true (.success "\x7b\x7d".data)
        = openaiHandler "GET".data [] false .noContent :=
  ⟨by decide,
    (C8_non_post_405 "GET".data plainBody [] true false (.success "\x7b\x7d".data) .noContent
      (by decide)).1,
    (C8_non_post_405 "GET".data plainBody [] true false (.success "\x7b\x7d".data) .noContent
      (by decide)).2.2.2.2⟩

/-- C6: on parse failure the caller-visible reply is a fixed constant of
each variant, independent of the raw provider text: any two failing raw
texts produce identical replies, so nothing from the raw text can reach
the caller. -/
theorem C6_parse_failure_noninterference (t1 t2 : List Char)
    (h1 : groqParsed t1 = none) (h2 : groqParsed t2 = none)
    (h3 : openaiParse t1 = none) (h4 : openaiParse t2 = none) :
    groqNormalize t1 = groqNormalize t2
    ∧ openaiNormalize t1 = openaiNormalize t2
    ∧ errMsgOf (groqNormalize t1) = some "Invalid AI response".data
    ∧ errMsgOf (openaiNormalize t1) = some "Failed to parse AI response as JSON".data := by
  have e1 : groqNormalize t1 = ⟨500, errObj "Invalid AI response"⟩ := by
    unfold groqNormalize
    rw [h1]
  have e2 : groqNormalize t2 = ⟨500, errObj "Invalid AI response"⟩ := by
    unfold groqNormalize
    rw [h2]
  have e3 : openaiNormalize t1 = ⟨500, errObj "Failed to parse AI response as JSON"⟩ := by
    unfold openaiNormalize
    rw [h3]
  have e4 : openaiNormalize t2 = ⟨500, errObj "Failed to parse AI response as JSON"⟩ := by
    unfold openaiNormalize
    rw [h4]
  exact ⟨e1.trans e2.symm, e3.trans e4.symm, by rw [e1]; rfl, by rw [e3]; rfl⟩

/-- C6 witness: two different unparsable provider texts produce the same
caller-visible reply in both variants. -/
theorem C6_parse_failure_noninterference_witness :
    groqNormalize "hello".data = groqNormalize "no json here!".data
    ∧ openaiNormalize "hello".data = openaiNormalize "no json here!".data :=
  ⟨(C6_parse_failure_noninterference "hello".data "no json here!".data rfl rfl rfl rfl).1,
    (C6_parse_failure_noninterference "hello".data "no json here!".data rfl rfl rfl rfl).2.1⟩

/-- C2 counterexample: on an unparsable text the OpenAI variant does
reply 500, but its body carries the thrown parse message, not the
`Invalid AI response` body the claim promises for both cited variants. -/
theorem C2_openai_parse_failure_message :
    (openaiNormalize "hello".data).status = 500
    ∧ errMsgOf (openaiNormalize "hello".data) = some "Failed to parse AI response as JSON".data
    ∧ "Failed to parse AI response as JSON".data ≠ "Invalid AI response".data :=
  ⟨rfl, rfl, by decide⟩

/-- C2 (amended): both cited variants first try `JSON.parse` on the
(trimmed, for Groq) text and then on the first-to-last-brace substring;
when both attempts fail the caller receives a generic 500 whose body is
`{error: "Invalid AI response"}` in the Groq variant and
`{error: "Failed to parse AI response as JSON"}` in the OpenAI variant,
with the raw text kept server-side in both. -/
theorem C2_two_stage_parse_failure (t : List Char)
    (h1 : jsonParse (trimList t) = none)
    (h2 : ∀ sub, extractBraces (trimList t) = some sub → jsonParse sub = none)
    (h3 : jsonParse t = none)
    (h4 : ∀ sub, extractBraces t = some sub → jsonParse sub = none) :
    groqNormalize t = ⟨500, errObj "Invalid AI response"⟩
    ∧ openaiNormalize t = ⟨500, errObj "Failed to parse AI response as JSON"⟩ := by
  constructor
  · unfold groqNormalize groqParsed
    cases he : extractBraces (trimList t) with
    | none => simp only [h1, he]
    | some sub => simp only [h1, he, h2 sub he]
  · unfold openaiNormalize openaiParse
    cases he : extractBraces t with
    | none => simp only [h3, he]
    | some sub => simp only [h3, he, h4 sub he]

/-- C2 witness: a brace-free text fails both attempts and yields the two
variant-specific generic bodies. -/
theorem C2_two_stage_parse_failure_witness :
    groqNormalize "no braces at all".data = ⟨500, errObj "Invalid AI response"⟩
    ∧ openaiNormalize "no braces at all".data
        = ⟨500, errObj "Failed to parse AI response as JSON"⟩ := by
  refine C2_two_stage_parse_failure "no braces at all".data rfl ?_ rfl ?_
  · intro sub h
    rw [show extractBraces (trimList "no braces at all".data) = none from rfl] at h
    exact Option.noConfusion h
  · intro sub h
    rw [show extractBraces "no braces at all".data = none from rfl] at h
    exact Option.noConfusion h

/-- C9: in the strict OpenAI variant a parsed reply whose `corrected`
field is the empty string — the very sentinel shape the prompt requests
on mismatch — fails the required-field validation and reaches the caller
as a 500, never as a 200. -/
theorem C9_empty_corrected_500 (t : List Char) (fs : List (List Char × Json))
    (hp : openaiParse t = some (.obj fs))
    (hc : getF fs corrKey = some (.str [])) :
    openaiNormalize t = ⟨500, errObj "Invalid response format from AI"⟩ := by
  unfold openaiNormalize
  simp only [hp]
  rw [if_neg (by simp [hc, jsTruthy])]

/-- C9 witness: the sentinel reply text itself is turned into a 500. -/
theorem C9_empty_corrected_500_witness :
    openaiParse sentinelText.data = some (.obj sentinelFields)
    ∧ openaiNormalize sentinelText.data = ⟨500, errObj "Invalid response format from AI"⟩ :=
  ⟨rfl, C9_empty_corrected_500 sentinelText.data sentinelFields rfl rfl⟩

/-- C1 counterexample: the Gemini variant echoes a parsed JSON number to
the caller with status 200 — a 2xx payload that is neither a well-formed
`CorrectionResult` nor the rejection sentinel. -/
theorem C1_gemini_shape_escape :
    (geminiHandler "POST".data plainBody true (.success "123".data)).response.status = 200
    ∧ isWellFormedResult
        (geminiHandler "POST".data plainBody true (.success "123".data)).response.body = false
    ∧ isRejectionSentinel
        (geminiHandler "POST".data plainBody true (.success "123".data)).response.body = false :=
  ⟨rfl, rfl, rfl⟩

/-- A coerced value that is an object is in the canonical shape (the
coercion leaves non-objects untouched). -/
theorem groqCoerce_wf_of_obj (j : Json) (h : isJsObj (groqCoerce j) = true) :
    isWellFormedResult (groqCoerce j) = true := by
  cases j with
  | obj fs => exact groqCoerce_obj_wellFormed fs
  | null => simp [groqCoerce, isJsObj] at h
  | bool b => simp [groqCoerce, isJsObj] at h
  | num l => simp [groqCoerce, isJsObj] at h
  | str s2 => simp [groqCoerce, isJsObj] at h
  | arr xs => simp [groqCoerce, isJsObj] at h

/-- Any 200 reply of the Groq normalizer whose payload is an object is
in the canonical shape. -/
theorem groqNormalize_200_obj_wellformed (content : List Char)
    (h200 : (groqNormalize content).status = 200)
    (hobj : isJsObj (groqNormalize content).body = true) :
    isWellFormedResult (groqNormalize content).body = true := by
  unfold groqNormalize at h200 hobj ⊢
  cases hp : groqParsed content with
  | none =>
    rw [hp] at h200
    simp at h200
  | some parsed =>
    rw [hp] at hobj
    exact groqCoerce_wf_of_obj parsed hobj

/-- C1 (amended): in the Groq variant, every 200 reply whose payload is
a JSON object is a well-formed `CorrectionResult`; non-object parses
(and every parse in the Gemini variant) are echoed back unchanged, so a
200 payload of another shape is possible. -/
theorem C1_groq_object_payload_wellformed (method : List Char)
    (body : List (List Char × Json)) (hasKey : Bool) (pr : ProviderResult)
    (h200 : (groqHandler method body hasKey pr).response.status = 200)
    (hobj : isJsObj (groqHandler method body hasKey pr).response.body = true) :
    isWellFormedResult (groqHandler method body hasKey pr).response.body = true := by
  unfold groqHandler at h200 hobj ⊢
  by_cases hm : method ≠ "POST".data
  · rw [if_pos hm] at h200
    simp at h200
  · rw [if_neg hm] at h200 hobj ⊢
    by_cases hs : ¬ groqSentenceOk body
    · rw [if_pos hs] at h200
      simp at h200
    · rw [if_neg hs] at h200 hobj ⊢
      by_cases hk : ¬ hasKey
      · rw [if_pos hk] at h200
        simp at h200
      · rw [if_neg hk] at h200 hobj ⊢
        cases pr with
        | httpError m => simp at h200
        | noContent => simp at h200
        | success content => exact groqNormalize_200_obj_wellformed content h200 hobj

/-- C1 witness: a Groq reply missing two fields and mistyping the third
is coerced into a well-formed 200 payload. -/
theorem C1_groq_object_payload_wellformed_witness :
    (groqHandler "POST".data plainBody true (.success "\x7b\"corrected\": 1\x7d".data)).response.status
        = 200
    ∧ isJsObj
        (groqHandler "POST".data plainBody true
          (.success "\x7b\"corrected\": 1\x7d".data)).response.body = true
    ∧ isWellFormedResult
        (groqHandler "POST".data plainBody true
          (.success "\x7b\"corrected\": 1\x7d".data)).response.body = true :=
  ⟨rfl, rfl,
    C1_groq_object_payload_wellformed "POST".data plainBody true
      (.success "\x7b\"corrected\": 1\x7d".data) rfl rfl⟩

/-- C5 counterexample: the same well-formed JSON object text yields 200
unfenced but 500 fenced in the Gemini variant, which parses directly and
never strips fences nor extracts braces. -/
theorem C5_gemini_fenced_fails :
    (geminiNormalize (fencePre ++ okText.data ++ fenceSuf)).status = 500
    ∧ (geminiNormalize okText.data).status = 200 :=
  ⟨rfl, rfl⟩

/-- C5 witness: a concrete well-formed object text normalizes
identically fenced and unfenced in the Groq variant. -/
theorem C5_groq_fence_strip_invariant_witness :
    jsonParse okText.data = some (.obj okFields)
    ∧ okText.data.head? = some leftBrace
    ∧ okText.data.getLast? = some rightBrace
    ∧ groqNormalize (fencePre ++ okText.data ++ fenceSuf) = groqNormalize okText.data :=
  ⟨rfl, rfl, rfl,
    C5_groq_fence_strip_invariant okText.data (.obj okFields) rfl rfl rfl⟩

/-- C4 counterexample: the Groq variant passes a seven-entry
`alternatives` array to the caller untruncated, against the claimed
at-most-five bound. -/
theorem C4_groq_no_truncation :
    (groqNormalize sevenAltsText.data).status = 200
    ∧ altsLenOf (groqNormalize sevenAltsText.data) = some 7
    ∧ altsLenOf (groqNormalize sevenAltsText.data) ≠ some 5 := by
  refine ⟨rfl, rfl, ?_⟩
  rw [show altsLenOf (groqNormalize sevenAltsText.data) = some 7 from rfl]
  decide

/-- C4 (amended): the truncation and the coercion live in different
variants.  The OpenAI variant truncates `alternatives` to the first five
entries on its 200 path (and 500s rather than coercing when the field is
not an array); the Groq variant coerces a non-array `alternatives` to
the empty array but passes arrays through whole, without truncation. -/
theorem C4_alternatives_policies (tg t : List Char) (fs : List (List Char × Json))
    (xs : List Json)
    (hgp : jsonParse (trimList tg) = some (.obj fs))
    (halts : getF fs altsKey = some (.arr xs))
    (hop : openaiParse t = some (.obj fs))
    (hc : jsTruthy (getF fs corrKey) = true)
    (he : jsTruthy (getF fs explKey) = true) :
    groqNormalize tg = ⟨200, groqCoerce (.obj fs)⟩
    ∧ getAlts (groqCoerce (.obj fs)) = some (.arr xs)
    ∧ openaiNormalize t = ⟨200, .obj [(corrKey, (getF fs corrKey).getD .null),
        (explKey, (getF fs explKey).getD .null), (altsKey, .arr (xs.take 5))]⟩
    ∧ (∀ fs2, isArrOpt (getF fs2 altsKey) = false →
        getAlts (groqCoerce (.obj fs2)) = some (.arr [])) := by
  refine ⟨?_, groqCoerce_alts_preserved fs xs halts, ?_, ?_⟩
  · unfold groqNormalize groqParsed
    simp only [hgp]
  · unfold openaiNormalize
    simp only [hop]
    have harr : isArrOpt (getF fs altsKey) = true := by
      rw [halts]
      rfl
    rw [if_pos (by rw [hc, he, harr]; rfl)]
    unfold take5Alts
    rw [halts]
  · intro fs2 hna
    have h1 : coerceAlts fs2 = objInsert fs2 altsKey (.arr []) := by
      unfold coerceAlts
      rw [hna]
      rfl
    have h2 : getF (coerceExpl (coerceCorr (coerceAlts fs2))) altsKey = some (.arr []) := by
      rw [coerceExpl_keeps (coerceCorr (coerceAlts fs2)) altsKey (by decide),
        coerceCorr_keeps (coerceAlts fs2) altsKey (by decide), h1, getF_objInsert_self]
    simp [groqCoerce, getAlts, h2]

/-- C4 witness: a reply with seven alternatives keeps all seven in the
Groq variant and only the first five in the OpenAI variant. -/
theorem C4_alternatives_policies_witness :
    groqNormalize sevenAltsText.data = ⟨200, groqCoerce (.obj sevenAltsFields)⟩
    ∧ openaiNormalize sevenAltsText.data = ⟨200, .obj [(corrKey, .str "a".data),
        (explKey, .str "b".data), (altsKey, .arr [.str "1".data, .str "2".data,
          .str "3".data, .str "4".data, .str "5".data])]⟩ := by
  have h := C4_alternatives_policies sevenAltsText.data sevenAltsText.data sevenAltsFields
    [.str "1".data, .str "2".data, .str "3".data, .str "4".data,
      .str "5".data, .str "6".data, .str "7".data] rfl rfl rfl rfl rfl
  exact ⟨h.1, h.2.2.1⟩

/-- A destructured `language` that strictly equals English does not
strictly equal Spanish. -/
theorem langIs_english_not_spanish (lang : Option Json)
    (h : langIs lang "English".data = true) : langIs lang "Spanish".data = false := by
  cases lang with
  | none => simp [langIs] at h
  | some j =>
    cases j with
    | str l =>
      have hl : l = "English".data := by simpa [langIs] using h
      subst hl
      rfl
    | null => simp [langIs] at h
    | bool b => simp [langIs] at h
    | num lx => simp [langIs] at h
    | arr xs => simp [langIs] at h
    | obj fs => simp [langIs] at h

/-- C3 counterexample: on the spec example request (English requested,
`Hola, ¿cómo estás hoy?`) the OpenAI handler replies 400 with an error
body — not a 200 rejection sentinel — and never calls the provider. -/
theorem C3_guard_returns_400_not_sentinel :
    (openaiHandler "POST".data holaBody true (.success okText.data)).response.status = 400
    ∧ isRejectionSentinel
        (openaiHandler "POST".data holaBody true (.success okText.data)).response.body = false
    ∧ (openaiHandler "POST".data holaBody true (.success okText.data)).calledProvider = false :=
  ⟨rfl, rfl, rfl⟩

/-- C3 (amended): when the requested language is English and the
sentence matches the Spanish heuristic, does not match the English
heuristic and is longer than twenty characters, the OpenAI handler
rejects with HTTP 400 and a language-mismatch error body, before the
provider is called; the rejection sentinel is never produced by this
guard, and the Spanish direction has no rejection branch at all. -/
theorem C3_english_guard_rejects_400 (body : List (List Char × Json)) (k : Bool)
    (pr : ProviderResult) (s : List Char)
    (hs : getF body sentenceKey = some (.str s))
    (hne : s ≠ [])
    (hl : getF body languageKey = some (.str "English".data))
    (hsp : isSpanishB s = true)
    (hen : isEnglishB s = false)
    (hlen : 20 < jsLength s) :
    openaiHandler "POST".data body k pr = ⟨⟨400, errObj mismatchMsg⟩, false⟩ := by
  have hok : openaiSentenceOk body = true := by
    unfold openaiSentenceOk
    rw [hs]
    simpa using hne
  have hg : openaiGuard (getF body languageKey) s = true := by
    rw [hl]
    unfold openaiGuard
    have hc1 : (langIs (some (Json.str "English".data)) "Spanish".data
        && !isSpanishB s && !isEnglishB s) = false := by
      rw [show langIs (some (Json.str "English".data)) "Spanish".data = false from rfl]
      rfl
    rw [if_neg (by simp [hc1])]
    have hc2 : (langIs (some (Json.str "English".data)) "English".data && isSpanishB s
        && !isEnglishB s && decide (20 < jsLength s)) = true := by
      rw [show langIs (some (Json.str "English".data)) "English".data = true from rfl,
        hsp, hen, decide_eq_true hlen]
      rfl
    rw [if_pos hc2]
  unfold openaiHandler
  rw [if_neg (by simp), if_neg (by simp [hok])]
  simp only [hs]
  rw [if_pos hg]
  rfl

/-- C3 witness: the spec example sentence satisfies the heuristics and
the twenty-character threshold, and the handler produces the 400
mismatch reply. -/
theorem C3_english_guard_rejects_400_witness :
    getF holaBody sentenceKey = some (.str "Hola, ¿cómo estás hoy?".data)
    ∧ isSpanishB "Hola, ¿cómo estás hoy?".data = true
    ∧ isEnglishB "Hola, ¿cómo estás hoy?".data = false
    ∧ 20 < jsLength "Hola, ¿cómo estás hoy?".data
    ∧ openaiHandler "POST".data holaBody true (.success okText.data)
        = ⟨⟨400, errObj mismatchMsg⟩, false⟩ :=
  ⟨rfl, rfl, rfl, by decide,
    C3_english_guard_rejects_400 holaBody true (.success okText.data)
      "Hola, ¿cómo estás hoy?".data rfl (by decide) rfl rfl rfl (by decide)⟩

/-- C7 counterexample: a whitespace-only sentence (empty after trimming)
is refused with 400 by the Groq variant but sails through the OpenAI
validation, which then calls the provider and replies 200. -/
theorem C7_whitespace_sentence_divergence :
    (groqHandler "POST".data spacesBody true (.success okText.data)).response
        = ⟨400, errObj "Sentence is required"⟩
    ∧ (openaiHandler "POST".data spacesBody true (.success okText.data)).calledProvider = true
    ∧ (openaiHandler "POST".data spacesBody true (.success okText.data)).response.status
        ≠ 400 := by
  refine ⟨rfl, rfl, ?_⟩
  rw [show (openaiHandler "POST".data spacesBody true
    (.success okText.data)).response.status = 200 from rfl]
  decide

/-- C7 (amended): on a POST whose `sentence` is a string that trims to
empty, the Groq and Gemini variants reply 400 `Sentence is required`
without calling the provider; the OpenAI variant only rejects missing,
non-string or strictly empty sentences (with its own message), so a
non-empty whitespace-only sentence reaches the provider there. -/
theorem C7_sentence_validation (body : List (List Char × Json)) (k : Bool)
    (pr : ProviderResult) (s : List Char)
    (hs : getF body sentenceKey = some (.str s))
    (ht : trimList s = []) :
    groqHandler "POST".data body k pr = ⟨⟨400, errObj "Sentence is required"⟩, false⟩
    ∧ geminiHandler "POST".data body k pr = ⟨⟨400, errObj "Sentence is required"⟩, false⟩
    ∧ (s ≠ [] → (openaiHandler "POST".data body true pr).calledProvider = true) := by
  have hok : groqSentenceOk body = false := by
    unfold groqSentenceOk
    rw [hs]
    simp [ht]
  refine ⟨?_, ?_, ?_⟩
  · unfold groqHandler
    rw [if_neg (by simp), if_pos (by simp [hok])]
  · unfold geminiHandler
    rw [if_neg (by simp), if_pos (by simp [hok])]
  · intro hne
    have hok2 : openaiSentenceOk body = true := by
      unfold openaiSentenceOk
      rw [hs]
      simpa using hne
    have hsp : isSpanishB s = false :=
      isSpanishB_all_ws s (all_ws_of_trimList_nil s ht)
    have hg : openaiGuard (getF body languageKey) s = false := by
      unfold openaiGuard
      by_cases h1 : (langIs (getF body languageKey) "Spanish".data && !isSpanishB s
          && !isEnglishB s) = true
      · rw [if_pos h1]
      · rw [if_neg h1, if_neg (by simp [hsp])]
    unfold openaiHandler
    rw [if_neg (by simp), if_neg (by simp [hok2])]
    simp only [hs]
    rw [if_neg (by simp [hg]), if_neg (by simp)]
    cases pr <;> rfl

/-- C7 witness: the three-space sentence triggers the Groq 400 and the
OpenAI provider call. -/
theorem C7_sentence_validation_witness :
    getF spacesBody sentenceKey = some (.str "   ".data)
    ∧ trimList "   ".data = []
    ∧ groqHandler "POST".data spacesBody true (.success okText.data)
        = ⟨⟨400, errObj "Sentence is required"⟩, false⟩
    ∧ (openaiHandler "POST".data spacesBody true (.success okText.data)).calledProvider
        = true := by
  have h := C7_sentence_validation spacesBody true (.success okText.data) "   ".data rfl rfl
  exact ⟨rfl, rfl, h.1, h.2.2 (by decide)⟩

/-- C10: the OpenAI language-mismatch guard never rejects when the
requested language is Spanish (that branch is empty in the source), and
it rejects exactly when the language is English, the sentence matches
the Spanish heuristic but not the English one, and the sentence is
longer than twenty characters. -/
theorem C10_guard_structure :
    (∀ s : List Char, openaiGuard (some (.str "Spanish".data)) s = false)
    ∧ (∀ (lang : Option Json) (s : List Char),
        openaiGuard lang s = true
          ↔ (langIs lang "English".data = true ∧ isSpanishB s = true
              ∧ isEnglishB s = false ∧ 20 < jsLength s)) := by
  constructor
  · intro s
    unfold openaiGuard
    by_cases h1 : (langIs (some (Json.str "Spanish".data)) "Spanish".data && !isSpanishB s
        && !isEnglishB s) = true
    · rw [if_pos h1]
    · rw [if_neg h1,
        if_neg (by simp [show langIs (some (Json.str "Spanish".data)) "English".data
          = false from rfl])]
  · intro lang s
    constructor
    · intro h
      unfold openaiGuard at h
      by_cases h1 : (langIs lang "Spanish".data && !isSpanishB s && !isEnglishB s) = true
      · rw [if_pos h1] at h
        exact absurd h Bool.false_ne_true
      · rw [if_neg h1] at h
        by_cases h2 : (langIs lang "English".data && isSpanishB s && !isEnglishB s
            && decide (20 < jsLength s)) = true
        · have h3 := h2
          simp only [Bool.and_eq_true] at h3
          obtain ⟨⟨⟨ha, hb⟩, hc⟩, hd⟩ := h3
          exact ⟨ha, hb, by simpa using hc, of_decide_eq_true hd⟩
        · rw [if_neg h2] at h
          exact absurd h Bool.false_ne_true
    · rintro ⟨ha, hb, hc, hd⟩
      unfold openaiGuard
      have hns : langIs lang "Spanish".data = false := langIs_english_not_spanish lang ha
      rw [if_neg (by simp [hns])]
      rw [if_pos (by rw [ha, hb, hc, decide_eq_true hd]; rfl)]
